import Mathlib

/-!
Verification of the wildfire-analyser fire-assessment pipeline.

Raster values are modelled per pixel as rational numbers; an image band is a
function from an abstract pixel type to a value, with masking represented by
Option. Dates handled through the %Y-%m-%d format and day-granularity
timedelta arithmetic are modelled as integer day numbers.
-/

namespace Wildfire

/-- Severity classification of an RBR value, from
post_fire_assessment.py, _classify_rbr_severity: the ternary chain
rbr < 0.10 gives 0, else rbr < 0.27 gives 1, else rbr < 0.44 gives 2,
else rbr < 0.66 gives 3, else 4. -/
def classifyRbrSeverity (rbr : ℚ) : ℕ :=
  if rbr < 0.10 then 0
  else if rbr < 0.27 then 1
  else if rbr < 0.44 then 2
  else if rbr < 0.66 then 3
  else 4

/-- Per-pixel delta of the burn index, from _compute_rbr:
before.select(nbr).subtract(after.select(nbr)). -/
def deltaNbr (beforeNbr afterNbr : ℚ) : ℚ :=
  beforeNbr - afterNbr

/-- Per-pixel relative burn ratio, from _compute_rbr:
delta_nbr.divide(before.select(nbr).add(1.001)). -/
def computeRbr (beforeNbr afterNbr : ℚ) : ℚ :=
  deltaNbr beforeNbr afterNbr / (beforeNbr + 1.001)

/-- Scale-selection logic of downloaders.py, download_single_band: with
MAX_BYTES = 50 * 1024 * 1024 and 4 bytes per pixel, the requested scale is
replaced by 50 exactly when the estimate exceeds the budget and the
requested scale is 10. -/
def downloadChooseScale (pixelCount : ℕ) (scale : ℕ) : ℕ :=
  let maxBytes := 50 * 1024 * 1024
  let estBytes := pixelCount * 4
  if estBytes > maxBytes ∧ scale = 10 then 50 else scale

/-- Modelled from the spec: normalizedDifference is a provider primitive
(the Earth Engine Image.normalizedDifference operation invoked by
_build_mosaic_with_indexes), whose implementation is not under src/.
Per the spec it computes (A - B) / (A + B) per pixel and is undefined
(masked) where A + B is zero; the undefined case is represented by none. -/
def normalizedDifference (a b : ℚ) : Option ℚ :=
  if a + b = 0 then none else some ((a - b) / (a + b))

/-- Time-window computation from time_windows.py,
compute_fire_time_windows, with %Y-%m-%d dates modelled as integer day
numbers and timedelta(days = k) as addition of k days: before window start
is start minus buffer, before window end is start plus one day, after
window start is end, after window end is end plus buffer plus one day. -/
def compute_fire_time_windows (startDay endDay : ℤ) (bufferDays : ℕ) :
    ℤ × ℤ × ℤ × ℤ :=
  (startDay - bufferDays, startDay + 1, endDay, endDay + bufferDays + 1)

/-- Per-pixel area in hectares, from _compute_area_by_severity:
ee.Image.pixelArea().divide(10000), with the engine-provided per-pixel
area in square meters modelled as a function on an abstract pixel type. -/
def pixelAreaHa {P : Type} (pixelAreaM2 : P → ℚ) : P → ℚ :=
  fun p => pixelAreaM2 p / 10000

/-- Masked per-class area image, from area_per_class inside
_compute_area_by_severity: pixel_area_ha.updateMask(severity_img.eq(c));
a masked-out pixel carries none. -/
def areaPerClass {P : Type} (severity : P → ℕ) (areaHa : P → ℚ) (c : ℕ) :
    P → Option ℚ :=
  fun p => if severity p = c then some (areaHa p) else none

/-- Region sum reducer, modelling reduceRegion with ee.Reducer.sum over
the ROI: the sum of the unmasked pixel values inside the region, or null
(none) when every pixel of the region is masked. -/
def reduceRegionSum {P : Type} [DecidableEq P] (roi : Finset P)
    (img : P → Option ℚ) : Option ℚ :=
  if (roi.filter fun p => (img p).isSome).Nonempty then
    some (∑ p in roi, ((img p).getD 0))
  else none

/-- Python falsy default, from areas.get(key, 0) or 0 in
_compute_area_by_severity: a missing or null entry and a zero entry both
give 0. -/
def pyOrZero (o : Option ℚ) : ℚ :=
  match o with
  | none => 0
  | some v => if v = 0 then 0 else v

/-- Per-class area table from _compute_area_by_severity: for each class c
in range(5), the ROI sum of the per-pixel hectare area masked to
severity = c, with missing or null sums defaulted to 0. -/
def computeAreaBySeverity {P : Type} [DecidableEq P] (roi : Finset P)
    (severity : P → ℕ) (pixelAreaM2 : P → ℚ) : List (ℕ × ℚ) :=
  (List.range 5).map fun c =>
    (c, pyOrZero (reduceRegionSum roi
      (areaPerClass severity (pixelAreaHa pixelAreaM2) c)))

/-- One satellite scene with the metadata best_date_mosaic reads:
system:time_start in epoch milliseconds, CLOUDY_PIXEL_PERCENTAGE, and a
tile identifier. -/
structure Scene where
  timeStartMs : ℕ
  cloudPct : ℚ
  tile : ℕ
deriving DecidableEq

/-- Sensing-date tag from add_date in best_date_mosaic:
ee.Date(system:time_start).format("YYYY-MM-dd") truncates the timestamp
to its day, modelled as the epoch day number. -/
def sensingDate (s : Scene) : ℕ := s.timeStartMs / 86400000

/-- Cloud-threshold prefilter of best_date_mosaic: when the context
provides cloud_threshold, keep scenes whose CLOUDY_PIXEL_PERCENTAGE is at
most the threshold. -/
def filterCloud (threshold : Option ℚ) (collection : List Scene) : List Scene :=
  match threshold with
  | none => collection
  | some t => collection.filter fun s => s.cloudPct ≤ t

/-- Ordering on scenes by cloud percentage, used by the provider sort on
CLOUDY_PIXEL_PERCENTAGE. -/
def cloudRel : Scene → Scene → Prop := fun s t => s.cloudPct ≤ t.cloudPct

instance : DecidableRel cloudRel :=
  fun s t => inferInstanceAs (Decidable (s.cloudPct ≤ t.cloudPct))

instance : IsTotal Scene cloudRel :=
  ⟨fun s t => le_total s.cloudPct t.cloudPct⟩

instance : IsTrans Scene cloudRel :=
  ⟨fun _ _ _ hab hbc => le_trans hab hbc⟩

/-- Provider sort (SceneCollection sortBy) on CLOUDY_PIXEL_PERCENTAGE,
ascending; modelled as a stable insertion sort. -/
def sortByCloud (collection : List Scene) : List Scene :=
  collection.insertionSort cloudRel

/-- Scenes the best_date strategy composites: the filtered collection
restricted to the sensing date of the first scene of the cloud-ascending
sort (dated.sort(CLOUDY_PIXEL_PERCENTAGE).first() in best_date_mosaic);
none when the filtered collection is empty. -/
def bestDateScenes (threshold : Option ℚ) (collection : List Scene) :
    Option (List Scene) :=
  match sortByCloud (filterCloud threshold collection) with
  | [] => none
  | best :: _ =>
      some ((filterCloud threshold collection).filter
        fun s => sensingDate s = sensingDate best)

/-- Pixel overlay semantics of ImageCollection.mosaic: scenes later in
collection order win wherever they have data. -/
def overlayMosaic (imgs : List (ℕ → Option ℚ)) : ℕ → Option ℚ :=
  fun p =>
    imgs.foldl (fun acc img =>
      match img p with
      | some v => some v
      | none => acc) none

/-- best_date_mosaic of mosaic_strategies.py: overlay of exactly the
scenes sharing the best date, with per-scene raster data supplied by the
provider as a function of the scene. -/
def best_date_mosaic (threshold : Option ℚ) (collection : List Scene)
    (data : Scene → ℕ → Option ℚ) : Option (ℕ → Option ℚ) :=
  (bestDateScenes threshold collection).map fun sel =>
    overlayMosaic (sel.map data)

/-- Example scene of 2024-09-05 with cloud percentage 80 (epoch day
19971). -/
def sceneSep05 : Scene :=
  { timeStartMs := 1725530400000, cloudPct := 80, tile := 0 }

/-- Example scene of 2024-09-12, tile A, with cloud percentage 10 (epoch
day 19978). -/
def sceneSep12A : Scene :=
  { timeStartMs := 1726135200000, cloudPct := 10, tile := 1 }

/-- Example scene of 2024-09-12, tile B, with cloud percentage 15 (epoch
day 19978). -/
def sceneSep12B : Scene :=
  { timeStartMs := 1726138800000, cloudPct := 15, tile := 2 }

/-- Example per-scene raster data for the best_date witness. -/
def exampleSceneData : Scene → ℕ → Option ℚ :=
  fun s _ => some s.cloudPct

/-- One single-band GeoTIFF as merge_bands receives it: the
rasterio-visible geometry (pixel dimensions, coordinate reference system,
grid origin) and the band data. -/
structure BandTiff where
  width : ℕ
  height : ℕ
  crs : String
  originX : ℤ
  originY : ℤ
  pixels : List ℚ
deriving DecidableEq

/-- The merged multi-band GeoTIFF: its profile is copied from the first
input (count updated), its bands are written in input iteration order. -/
structure MultiBandTiff where
  width : ℕ
  height : ℕ
  crs : String
  originX : ℤ
  originY : ℤ
  bands : List (String × List ℚ)
deriving DecidableEq

/-- Failures of merge_bands: next(iter(...)) on an empty dict raises, and
rasterio dst.write raises when a band array shape differs from the
destination profile dimensions. No other validation exists in the code;
in particular there is no coordinate-reference-system check and no
dedicated geometry-mismatch exception type. -/
inductive MergeError where
  | emptyInput : MergeError
  | writeShapeMismatch : MergeError
deriving DecidableEq

/-- merge_bands of post_fire_assessment.py: copy the first profile,
update the band count, write each input band in iteration order; the
write fails if and only if some input has pixel dimensions different from
the first, and nothing else about the grids is compared. -/
def merge_bands (bandTiffs : List (String × BandTiff)) :
    Except MergeError MultiBandTiff :=
  match bandTiffs with
  | [] => .error .emptyInput
  | (hd :: _) =>
      if bandTiffs.all fun nb =>
          nb.2.width == hd.2.width && nb.2.height == hd.2.height then
        .ok { width := hd.2.width, height := hd.2.height, crs := hd.2.crs,
              originX := hd.2.originX, originY := hd.2.originY,
              bands := bandTiffs.map fun nb => (nb.1, nb.2.pixels) }
      else .error .writeShapeMismatch

/-- Example band with a UTM coordinate reference system. -/
def bandUtm : BandTiff :=
  { width := 2, height := 2, crs := "EPSG:32633", originX := 500000,
    originY := 8000000, pixels := [1, 2, 3, 4] }

/-- Example band with the same pixel dimensions as bandUtm but a
different, geographic coordinate reference system. -/
def bandGeo : BandTiff :=
  { width := 2, height := 2, crs := "EPSG:4326", originX := 15,
    originY := 72, pixels := [5, 6, 7, 8] }

/-- Example band whose pixel dimensions differ from bandUtm. -/
def bandSmall : BandTiff :=
  { width := 1, height := 2, crs := "EPSG:32633", originX := 500000,
    originY := 8000000, pixels := [9, 10] }

/-- One scene as cloud_masked_light_mosaic reads it: its band names, the
SCL scene-classification band, the MSK_CLDPRB cloud-probability band, the
current validity mask and the spectral band values, all per pixel over an
abstract pixel type. -/
structure SclImage (P : Type) where
  bands : List String
  scl : P → ℕ
  cldprb : P → ℚ
  m : P → Bool
  v : String → P → ℚ

/-- The light SCL mask of cloud_masked_light_mosaic, _mask_scl_light:
updateMask with the negation of scl in {1, 3, 9, 10} (the code includes
class 1, saturated or defective, alongside cloud shadow, high-probability
cloud and cirrus). -/
def maskSclLight {P : Type} (img : SclImage P) : SclImage P :=
  { img with
    m := fun p => img.m p &&
      !(img.scl p == 1 || img.scl p == 3 || img.scl p == 9 || img.scl p == 10) }

/-- The quality band added by add_quality inside
cloud_masked_light_mosaic: 100 minus MSK_CLDPRB, lowered by 5 where
SCL equals 8. -/
def addQuality {P : Type} (img : SclImage P) : SclImage P :=
  { img with
    bands := img.bands ++ ["quality"],
    v := fun b p =>
      if b = "quality" then
        if img.scl p = 8 then (100 - img.cldprb p) - 5 else 100 - img.cldprb p
      else img.v b p }

/-- One step of the per-pixel qualityMosaic scan: an image masked at the
pixel is skipped, otherwise it replaces the current winner exactly when
its quality band value is strictly greater. -/
def pickStep {P : Type} (p : P) (acc : Option (SclImage P))
    (img : SclImage P) : Option (SclImage P) :=
  if img.m p then
    match acc with
    | none => some img
    | some best =>
        if best.v "quality" p < img.v "quality" p then some img else acc
  else acc

/-- Per-pixel winner of qualityMosaic: among the images valid at the
pixel, the one with the greatest value of the quality band (the first
such, scanning in collection order). -/
def pickBest {P : Type} (imgs : List (SclImage P)) (p : P) :
    Option (SclImage P) :=
  imgs.foldl (pickStep p) none

/-- A composite raster: band names and per-pixel values, none where no
contributing image is valid. -/
structure Composite (P : Type) where
  bands : List String
  v : String → P → Option ℚ

/-- qualityMosaic over the quality band: per pixel, the bands of the
winning image; band names come from the collection head. -/
def qualityMosaicComposite {P : Type} (imgs : List (SclImage P)) :
    Composite P :=
  { bands := (imgs.head?.map SclImage.bands).getD [],
    v := fun b p => (pickBest imgs p).map fun img => img.v b p }

/-- Band selection on a composite, modelling Image.select with an
explicit band list. -/
def selectBands {P : Type} (c : Composite P) (bs : List String) :
    Composite P :=
  { bands := bs, v := fun b p => if b ∈ bs then c.v b p else none }

/-- cloud_masked_light_mosaic of mosaic_strategies.py: light SCL mask on
every scene, quality band added, qualityMosaic, then the quality band
removed from the output (bandNames().remove removes its first
occurrence, modelled by List.erase). -/
def cloud_masked_light_mosaic {P : Type} (collection : List (SclImage P)) :
    Composite P :=
  let mosaic := qualityMosaicComposite
    ((collection.map maskSclLight).map addQuality)
  selectBands mosaic (mosaic.bands.erase "quality")

/-- A pixel is retained by the light SCL mask when it was already valid
and its SCL class is outside {1, 3, 9, 10}. -/
def validAt {P : Type} (img : SclImage P) (p : P) : Prop :=
  img.m p = true ∧ img.scl p ∉ ([1, 3, 9, 10] : List ℕ)

/-- The quality score cloud_masked_light_mosaic assigns a pixel: 100
minus cloud probability, minus a penalty of 5 exactly where SCL is 8
(the cloud-edge category). -/
def qualityScore {P : Type} (img : SclImage P) (p : P) : ℚ :=
  (100 - img.cldprb p) - (if img.scl p = 8 then 5 else 0)

/-- Example one-pixel scene whose only pixel is saturated or defective
(SCL class 1), cloud-free and initially unmasked. -/
def satPix : SclImage (Fin 1) :=
  { bands := ["B4"], scl := fun _ => 1, cldprb := fun _ => 0,
    m := fun _ => true, v := fun _ _ => 42 }

/-- Example one-pixel scene with a clear pixel (SCL class 4) and cloud
probability 20, giving quality 80. -/
def imgClear : SclImage (Fin 1) :=
  { bands := ["B4"], scl := fun _ => 4, cldprb := fun _ => 20,
    m := fun _ => true, v := fun _ _ => 7 }

/-- Example one-pixel scene in the cloud-edge category (SCL class 8)
with cloud probability 10, giving quality 90 - 5 = 85. -/
def imgEdge : SclImage (Fin 1) :=
  { bands := ["B4"], scl := fun _ => 8, cldprb := fun _ => 10,
    m := fun _ => true, v := fun _ _ => 9 }

/-- Modelled from the spec: validators.validate_date (the validators
module is not under src/); an ISO %Y-%m-%d date string is four digits, a
dash, a two-digit month between 01 and 12, a dash and a two-digit day
between 01 and 31. -/
def validate_date (s : String) : Bool :=
  match s.toList with
  | [y1, y2, y3, y4, c1, m1, m2, c2, d1, d2] =>
      y1.isDigit && y2.isDigit && y3.isDigit && y4.isDigit &&
      c1 == '-' && m1.isDigit && m2.isDigit && c2 == '-' &&
      d1.isDigit && d2.isDigit &&
      (let month := (m1.toNat - 48) * 10 + (m2.toNat - 48)
       let day := (d1.toNat - 48) * 10 + (d2.toNat - 48)
       decide (1 ≤ month) && decide (month ≤ 12) &&
         decide (1 ≤ day) && decide (day ≤ 31))
  | _ => false

/-- Lexicographic strict order on character lists by code point,
modelling how Python compares strings. -/
def listLtChar : List Char → List Char → Bool
  | [], [] => false
  | [], _ :: _ => true
  | _ :: _, [] => false
  | a :: as, b :: bs =>
      if a.toNat < b.toNat then true
      else if b.toNat < a.toNat then false
      else listLtChar as bs

/-- Python string comparison start_date > end_date: lexicographic on
code points. -/
def strGtPy (a b : String) : Bool := listLtChar b.toList a.toList

/-- The observable outcomes of PostFireAssessment.__init__ on its date
arguments, in the order the code runs them: date-format validation
raises first, then the chronological check raises ValueError when
start_date > end_date (a lexicographic string comparison), and only
after both does control reach GEEClient initialization, the first remote
work. -/
inductive InitOutcome where
  | invalidDateError : InitOutcome
  | chronologyValueError : InitOutcome
  | remoteInitReached : InitOutcome
deriving DecidableEq

/-- Date handling of PostFireAssessment.__init__: validate_date on both
arguments, then raise ValueError only when start_date > end_date, then
proceed to remote initialization. -/
def postFireInit (startDate endDate : String) : InitOutcome :=
  if ¬ (validate_date startDate = true) then .invalidDateError
  else if ¬ (validate_date endDate = true) then .invalidDateError
  else if strGtPy startDate endDate then .chronologyValueError
  else .remoteInitReached

/-- Example ROI of three pixels for the area-aggregation witness. -/
def exampleRoi : Finset (Fin 3) := Finset.univ

/-- Example severity raster placing pixel 0 in class 1 and the others in
class 4. -/
def exampleSeverity : Fin 3 → ℕ := fun p => if p = 0 then 1 else 4

/-- Example per-pixel area of 100 square meters (one Sentinel-2 pixel). -/
def exampleAreaM2 : Fin 3 → ℚ := fun _ => 100

/-- C1: the severity classifier assigns exactly one class in {0,1,2,3,4},
with class 0 iff rbr < 0.10, class 1 iff 0.10 <= rbr < 0.27, class 2 iff
0.27 <= rbr < 0.44, class 3 iff 0.44 <= rbr < 0.66, class 4 iff
rbr >= 0.66; the five half-open intervals partition the rationals with
inclusive lower and exclusive upper edges. -/
theorem classifyRbrSeverity_partitions (r : ℚ) :
    (classifyRbrSeverity r = 0 ↔ r < 0.10) ∧
    (classifyRbrSeverity r = 1 ↔ 0.10 ≤ r ∧ r < 0.27) ∧
    (classifyRbrSeverity r = 2 ↔ 0.27 ≤ r ∧ r < 0.44) ∧
    (classifyRbrSeverity r = 3 ↔ 0.44 ≤ r ∧ r < 0.66) ∧
    (classifyRbrSeverity r = 4 ↔ 0.66 ≤ r) ∧
    classifyRbrSeverity r ≤ 4 := by
  unfold classifyRbrSeverity
  split_ifs with h1 h2 h3 h4 <;>
    refine ⟨?_, ?_, ?_, ?_, ?_, ?_⟩ <;>
    first
      | decide
      | (constructor
         · intro h
           first
             | exact absurd h (by decide)
             | assumption
             | exact ⟨by linarith, by linarith⟩
             | linarith
         · intro h
           first
             | rfl
             | (exfalso
                first
                  | linarith
                  | (obtain ⟨ha, hb⟩ := h; linarith)))

/-- Concrete evaluation of the pipeline RBR at the documented example
values before.nbr = 0.5, after.nbr = 0.1. -/
lemma rbrExampleVal : computeRbr 0.5 0.1 = 400 / 1501 := by
  norm_num [computeRbr, deltaNbr]

/-- Concrete classification of the documented example RBR value: it lies
in [0.10, 0.27), hence class 1. -/
lemma rbrExampleClass : classifyRbrSeverity (computeRbr 0.5 0.1) = 1 := by
  rw [rbrExampleVal]
  unfold classifyRbrSeverity
  rw [if_neg (by norm_num), if_pos (by norm_num)]

/-- C2 counterexample: at before.nbr = 0.5 and after.nbr = 0.1 the
pipeline RBR is 0.4 / 1.501, which is strictly below 0.27, so the
classifier assigns class 1 (Low), not class 2 (Moderate) as the claim
states. -/
theorem computeRbr_example_is_low_not_moderate :
    classifyRbrSeverity (computeRbr 0.5 0.1) = 1 ∧
    classifyRbrSeverity (computeRbr 0.5 0.1) ≠ 2 := by
  rw [rbrExampleClass]
  exact ⟨rfl, by norm_num⟩

/-- C2 amended: the relative burn ratio equals
(before.nbr - after.nbr) / (before.nbr + 1.001) per pixel with the fixed
1.001 offset; at before.nbr = 0.5 and after.nbr = 0.1 the result is
0.4 / 1.501, which the classifier maps to class 1 (Low). -/
theorem computeRbr_formula (b a : ℚ) :
    computeRbr b a = (b - a) / (b + 1.001) ∧
    computeRbr 0.5 0.1 = 0.4 / 1.501 ∧
    classifyRbrSeverity (computeRbr 0.5 0.1) = 1 :=
  ⟨rfl, by rw [rbrExampleVal]; norm_num, rbrExampleClass⟩

/-- C4: the download size guard multiplies the pixel count by 4 bytes,
downgrades the scale to the single fixed value 50 exactly when that
estimate exceeds 50 MiB and the requested scale is 10, and otherwise
returns the requested scale unchanged (so no second downgrade step is
possible); in particular 20,000,000 pixels at scale 10 yield 50 and
1,000,000 pixels yield 10. -/
theorem downloadChooseScale_spec (pc s : ℕ) :
    (pc * 4 > 50 * 1024 * 1024 ∧ s = 10 → downloadChooseScale pc s = 50) ∧
    (¬(pc * 4 > 50 * 1024 * 1024 ∧ s = 10) → downloadChooseScale pc s = s) ∧
    downloadChooseScale 20000000 10 = 50 ∧
    downloadChooseScale 1000000 10 = 10 := by
  refine ⟨?_, ?_, by decide, by decide⟩ <;> intro h <;>
    simp only [downloadChooseScale] <;> split_ifs with hc <;>
    first
      | rfl
      | exact absurd h hc
      | exact absurd hc h

/-- C4 witness: the two documented cases, obtained from the general
theorem at concrete inputs. -/
theorem downloadChooseScale_spec_witness :
    downloadChooseScale 20000000 10 = 50 ∧ downloadChooseScale 1000000 10 = 10 :=
  ⟨(downloadChooseScale_spec 20000000 10).1 (by decide),
   (downloadChooseScale_spec 1000000 10).2.1 (by decide)⟩

/-- C9: the normalized difference (A - B) / (A + B) is antisymmetric in
its two bands: swapping them negates every defined output pixel, and
where A + B = 0 both orientations stay undefined (masked) rather than
being zeroed. -/
theorem normalizedDifference_antisymm (a b : ℚ) :
    normalizedDifference b a = (normalizedDifference a b).map (fun v => -v) ∧
    (a + b = 0 →
      normalizedDifference a b = none ∧ normalizedDifference b a = none) := by
  constructor
  · unfold normalizedDifference
    rcases eq_or_ne (a + b) 0 with h0 | h0
    · rw [if_pos h0, if_pos (by linarith : b + a = 0)]
      rfl
    · rw [if_neg h0, if_neg (fun hba => h0 (by linarith))]
      show some _ = some _
      congr 1
      show (b - a) / (b + a) = -((a - b) / (a + b))
      rw [← neg_div, neg_sub, add_comm a b]
  · intro h
    have hba : b + a = 0 := by linarith
    exact ⟨by simp [normalizedDifference, h], by simp [normalizedDifference, hba]⟩

/-- C9 witness: at bands A = 1 and B = -1 the sum is zero, both
orientations are undefined, and the swap-negation relation holds. -/
theorem normalizedDifference_antisymm_witness :
    ((1 : ℚ) + (-1) = 0) ∧
    (normalizedDifference (-1) 1 =
      (normalizedDifference 1 (-1)).map (fun v => -v)) ∧
    normalizedDifference 1 (-1) = none ∧ normalizedDifference (-1) 1 = none :=
  ⟨by norm_num, (normalizedDifference_antisymm 1 (-1)).1,
   (normalizedDifference_antisymm 1 (-1)).2 (by norm_num)⟩

/-- C10: the time-window calculator returns before window
[start - buffer, start + 1) and after window [end, end + buffer + 1); the
before window contains the start date, the after window contains the end
date, and when start < end the two half-open windows are disjoint. -/
theorem compute_fire_time_windows_spec (sd ed : ℤ) (b : ℕ) (h : sd < ed) :
    compute_fire_time_windows sd ed b = (sd - b, sd + 1, ed, ed + b + 1) ∧
    sd ∈ Set.Ico (sd - (b : ℤ)) (sd + 1) ∧
    ed ∈ Set.Ico ed (ed + (b : ℤ) + 1) ∧
    Set.Ico (sd - (b : ℤ)) (sd + 1) ∩ Set.Ico ed (ed + (b : ℤ) + 1) = ∅ := by
  refine ⟨rfl, ?_, ?_, ?_⟩
  · exact Set.mem_Ico.mpr ⟨by omega, by omega⟩
  · exact Set.mem_Ico.mpr ⟨le_refl ed, by omega⟩
  · apply Set.eq_empty_iff_forall_not_mem.mpr
    intro d hd
    have h1 := Set.mem_Ico.mp hd.1
    have h2 := Set.mem_Ico.mp hd.2
    omega

/-- C10 witness: start day 0, end day 5, buffer 30: windows
[-30, 1) and [5, 36), the first containing 0, the second containing 5,
and the two disjoint. -/
theorem compute_fire_time_windows_spec_witness :
    ((0 : ℤ) < 5) ∧
    (compute_fire_time_windows 0 5 30 =
        (0 - ((30 : ℕ) : ℤ), 0 + 1, 5, 5 + ((30 : ℕ) : ℤ) + 1) ∧
      (0 : ℤ) ∈ Set.Ico (0 - ((30 : ℕ) : ℤ)) ((0 : ℤ) + 1) ∧
      (5 : ℤ) ∈ Set.Ico (5 : ℤ) (5 + ((30 : ℕ) : ℤ) + 1) ∧
      Set.Ico (0 - ((30 : ℕ) : ℤ)) ((0 : ℤ) + 1) ∩
          Set.Ico (5 : ℤ) (5 + ((30 : ℕ) : ℤ) + 1) = ∅) :=
  ⟨by norm_num, compute_fire_time_windows_spec 0 5 30 (by norm_num)⟩

/-- C8: evaluation of the date handling of PostFireAssessment.__init__ at
the inputs that decide the claim: two equal valid dates pass the
chronological check unraised and construction proceeds to remote
initialization, a reversed pair raises the ValueError before remote
initialization, an ordered pair proceeds, and a malformed date fails
format validation first. The code rejects only start_date > end_date, so
equality is accepted, contradicting the required start_date < end_date
(and the error raised is ValueError, not an InvalidDateRangeError). -/
theorem postFireInit_equal_dates_accepted :
    postFireInit "2024-09-01" "2024-09-01" = InitOutcome.remoteInitReached ∧
    postFireInit "2024-11-08" "2024-09-01" = InitOutcome.chronologyValueError ∧
    postFireInit "2024-09-01" "2024-11-08" = InitOutcome.remoteInitReached ∧
    postFireInit "not-a-date" "2024-11-08" = InitOutcome.invalidDateError := by
  refine ⟨?_, ?_, ?_, ?_⟩ <;> decide

/-- A non-null reducer output passes through the Python falsy default
unchanged. -/
lemma pyOrZero_some (v : ℚ) : pyOrZero (some v) = v := by
  show (if v = 0 then 0 else v) = v
  split_ifs with h
  · exact h.symm
  · rfl

/-- A pixel survives the per-class mask exactly when its severity class
is the requested one. -/
lemma areaPerClass_isSome {P : Type} (severity : P → ℕ) (areaHa : P → ℚ)
    (c : ℕ) (p : P) :
    (areaPerClass severity areaHa c p).isSome = true ↔ severity p = c := by
  unfold areaPerClass
  split_ifs with h <;> simp [h]

/-- The defaulted ROI sum of the per-class masked area equals the plain
sum of the area over the pixels of that class, also when the reducer
returns null because the class is absent. -/
lemma area_class_value {P : Type} [DecidableEq P] (roi : Finset P)
    (severity : P → ℕ) (areaHa : P → ℚ) (c : ℕ) :
    pyOrZero (reduceRegionSum roi (areaPerClass severity areaHa c)) =
      ∑ p in roi.filter fun p => severity p = c, areaHa p := by
  unfold reduceRegionSum
  have hfilter : (roi.filter fun p => (areaPerClass severity areaHa c p).isSome) =
      roi.filter fun p => severity p = c := by
    apply Finset.filter_congr
    intro p _
    simp [areaPerClass_isSome]
  split_ifs with h
  · rw [pyOrZero_some, Finset.sum_filter]
    apply Finset.sum_congr rfl
    intro p _
    unfold areaPerClass
    split_ifs <;> rfl
  · rw [hfilter, Finset.not_nonempty_iff_eq_empty] at h
    rw [h, Finset.sum_empty]
    rfl

/-- C3: the per-class area computation returns the five keys 0..4 in
order (a class absent from the ROI included, with value 0), and each
value is the nonnegative sum, within the ROI, of the per-pixel hectare
area over the pixels of that class. -/
theorem computeAreaBySeverity_spec {P : Type} [DecidableEq P]
    (roi : Finset P) (severity : P → ℕ) (pixelAreaM2 : P → ℚ)
    (hA : ∀ p ∈ roi, 0 ≤ pixelAreaM2 p) :
    (computeAreaBySeverity roi severity pixelAreaM2).map Prod.fst =
      [0, 1, 2, 3, 4] ∧
    ∀ c v, (c, v) ∈ computeAreaBySeverity roi severity pixelAreaM2 →
      v = (∑ p in roi.filter fun p => severity p = c,
            pixelAreaM2 p / 10000) ∧
      0 ≤ v := by
  constructor
  · rfl
  · intro c v hmem
    unfold computeAreaBySeverity at hmem
    rw [List.mem_map] at hmem
    obtain ⟨c', _, heq⟩ := hmem
    have hc : c' = c := congrArg Prod.fst heq
    have hv : pyOrZero (reduceRegionSum roi
        (areaPerClass severity (pixelAreaHa pixelAreaM2) c')) = v :=
      congrArg Prod.snd heq
    constructor
    · rw [← hv, ← hc]
      exact area_class_value roi severity (pixelAreaHa pixelAreaM2) c'
    · rw [← hv, area_class_value]
      apply Finset.sum_nonneg
      intro p hp
      exact div_nonneg (hA p (Finset.mem_filter.mp hp).1) (by norm_num)

/-- C3 witness: a three-pixel ROI with classes 1 and 4 and 100 square
meters per pixel, the hypotheses discharged concretely. -/
theorem computeAreaBySeverity_spec_witness :
    (∀ p ∈ exampleRoi, 0 ≤ exampleAreaM2 p) ∧
    ((computeAreaBySeverity exampleRoi exampleSeverity exampleAreaM2).map
        Prod.fst = [0, 1, 2, 3, 4] ∧
      ∀ c v,
        (c, v) ∈ computeAreaBySeverity exampleRoi exampleSeverity exampleAreaM2 →
        v = (∑ p in exampleRoi.filter fun p => exampleSeverity p = c,
              exampleAreaM2 p / 10000) ∧
        0 ≤ v) :=
  ⟨fun p _ => by norm_num [exampleAreaM2],
   computeAreaBySeverity_spec exampleRoi exampleSeverity exampleAreaM2
     (fun p _ => by norm_num [exampleAreaM2])⟩

/-- The write loop of merge_bands succeeds exactly when every input
shares the pixel dimensions of the first. -/
lemma merge_bands_all_iff (name : String) (b : BandTiff)
    (rest : List (String × BandTiff)) :
    ((((name, b) :: rest).all fun nb =>
        nb.2.width == b.width && nb.2.height == b.height) = true) ↔
      ∀ nb ∈ rest, nb.2.width = b.width ∧ nb.2.height = b.height := by
  simp [List.all_cons]

/-- C6 counterexample: two inputs with identical pixel dimensions but
different coordinate reference systems merge successfully, producing an
output stamped with the first input's reference system, instead of
failing with a geometry-mismatch error as the claim states. -/
theorem merge_bands_crs_mismatch_not_rejected :
    bandUtm.crs ≠ bandGeo.crs ∧
    merge_bands [("red", bandUtm), ("nir", bandGeo)] =
      Except.ok
        { width := 2, height := 2, crs := "EPSG:32633",
          originX := 500000, originY := 8000000,
          bands := [("red", bandUtm.pixels), ("nir", bandGeo.pixels)] } := by
  exact ⟨by decide, rfl⟩

/-- C6 amended: merge_bands succeeds (copying the first input's
georeferencing, including its coordinate reference system, without
comparing the others) exactly when every input has the pixel dimensions
of the first; with differing pixel dimensions it fails with the
underlying raster-write shape error — the code defines no
GeometryMismatchError and never compares reference systems or origins. -/
theorem merge_bands_shape_spec (name : String) (b : BandTiff)
    (rest : List (String × BandTiff)) :
    ((∀ nb ∈ rest, nb.2.width = b.width ∧ nb.2.height = b.height) →
        merge_bands ((name, b) :: rest) =
          Except.ok
            { width := b.width, height := b.height, crs := b.crs,
              originX := b.originX, originY := b.originY,
              bands := ((name, b) :: rest).map fun nb => (nb.1, nb.2.pixels) }) ∧
    ((¬ ∀ nb ∈ rest, nb.2.width = b.width ∧ nb.2.height = b.height) →
        merge_bands ((name, b) :: rest) =
          Except.error MergeError.writeShapeMismatch) ∧
    merge_bands [("red", bandUtm), ("pan", bandSmall)] =
      Except.error MergeError.writeShapeMismatch := by
  refine ⟨?_, ?_, by rfl⟩
  · intro h
    simp only [merge_bands]
    rw [if_pos ((merge_bands_all_iff name b rest).mpr h)]
  · intro h
    simp only [merge_bands]
    rw [if_neg fun hc => h ((merge_bands_all_iff name b rest).mp hc)]

/-- The first scene of the cloud-ascending sort belongs to the collection
and has the globally lowest cloud percentage. -/
lemma sortByCloud_head_min (l : List Scene) (best : Scene) (rest : List Scene)
    (h : sortByCloud l = best :: rest) :
    best ∈ l ∧ ∀ s ∈ l, best.cloudPct ≤ s.cloudPct := by
  have hperm := List.perm_insertionSort cloudRel l
  have hsorted := List.sorted_insertionSort cloudRel l
  rw [sortByCloud] at h
  rw [h] at hperm hsorted
  constructor
  · exact hperm.mem_iff.mp (List.mem_cons_self best rest)
  · intro s hs
    rcases List.mem_cons.mp (hperm.mem_iff.mpr hs) with heq | hmem
    · subst heq
      exact le_refl _
    · exact List.rel_of_sorted_cons hsorted s hmem

/-- C5: on a non-empty filtered collection, best_date_mosaic picks a
scene with globally lowest cloud percentage, restricts the collection to
exactly the scenes sharing its sensing date (every selected scene has
that date and every scene of that date is selected) and overlays only
those. -/
theorem best_date_mosaic_spec (threshold : Option ℚ) (collection : List Scene)
    (data : Scene → ℕ → Option ℚ)
    (h : filterCloud threshold collection ≠ []) :
    ∃ best sel,
      bestDateScenes threshold collection = some sel ∧
      best ∈ filterCloud threshold collection ∧
      (∀ s ∈ filterCloud threshold collection, best.cloudPct ≤ s.cloudPct) ∧
      sel = (filterCloud threshold collection).filter
        (fun s => sensingDate s = sensingDate best) ∧
      (∀ s ∈ sel, sensingDate s = sensingDate best) ∧
      (∀ s ∈ filterCloud threshold collection,
        sensingDate s = sensingDate best → s ∈ sel) ∧
      best_date_mosaic threshold collection data =
        some (overlayMosaic (sel.map data)) := by
  cases hs : sortByCloud (filterCloud threshold collection) with
  | nil =>
      exfalso
      apply h
      have hperm :=
        List.perm_insertionSort cloudRel (filterCloud threshold collection)
      rw [sortByCloud] at hs
      rw [hs] at hperm
      exact hperm.symm.eq_nil
  | cons best rest =>
      obtain ⟨hmem, hmin⟩ := sortByCloud_head_min _ best rest hs
      have hsel : bestDateScenes threshold collection =
          some ((filterCloud threshold collection).filter
            fun s => sensingDate s = sensingDate best) := by
        unfold bestDateScenes
        rw [hs]
      refine ⟨best, _, hsel, hmem, hmin, rfl, ?_, ?_, ?_⟩
      · intro s hsmem
        have hm := List.mem_filter.mp hsmem
        simpa using hm.2
      · intro s hsmem hdate
        exact List.mem_filter.mpr ⟨hsmem, by simpa using hdate⟩
      · unfold best_date_mosaic
        rw [hsel]
        rfl

/-- C5 witness: of the scenes dated 2024-09-05 (cloud 80), 2024-09-12
tile A (cloud 10) and 2024-09-12 tile B (cloud 15), the strategy selects
the 2024-09-12 date and composites exactly tiles A and B, in that
order. -/
theorem best_date_mosaic_spec_witness :
    (filterCloud none [sceneSep05, sceneSep12A, sceneSep12B] ≠ []) ∧
    (∃ best sel,
      bestDateScenes none [sceneSep05, sceneSep12A, sceneSep12B] = some sel ∧
      best ∈ filterCloud none [sceneSep05, sceneSep12A, sceneSep12B] ∧
      (∀ s ∈ filterCloud none [sceneSep05, sceneSep12A, sceneSep12B],
        best.cloudPct ≤ s.cloudPct) ∧
      sel = (filterCloud none [sceneSep05, sceneSep12A, sceneSep12B]).filter
        (fun s => sensingDate s = sensingDate best) ∧
      (∀ s ∈ sel, sensingDate s = sensingDate best) ∧
      (∀ s ∈ filterCloud none [sceneSep05, sceneSep12A, sceneSep12B],
        sensingDate s = sensingDate best → s ∈ sel) ∧
      best_date_mosaic none [sceneSep05, sceneSep12A, sceneSep12B]
          exampleSceneData =
        some (overlayMosaic (sel.map exampleSceneData))) ∧
    bestDateScenes none [sceneSep05, sceneSep12A, sceneSep12B] =
      some [sceneSep12A, sceneSep12B] := by
  refine ⟨by simp [filterCloud],
    best_date_mosaic_spec none _ exampleSceneData (by simp [filterCloud]), ?_⟩
  norm_num [bestDateScenes, sortByCloud, filterCloud, List.insertionSort,
    List.orderedInsert, cloudRel, sensingDate, sceneSep05, sceneSep12A,
    sceneSep12B]

/-- A qualityMosaic step yields no winner exactly when there was none and
the incoming image is masked at the pixel. -/
lemma pickStep_none_iff {P : Type} {p : P} {acc : Option (SclImage P)}
    {img : SclImage P} :
    pickStep p acc img = none ↔ acc = none ∧ img.m p = false := by
  by_cases him : img.m p = true
  · cases acc with
    | none => simp [pickStep, him]
    | some best =>
        by_cases hlt : best.v "quality" p < img.v "quality" p <;>
          simp [pickStep, him, hlt]
  · rw [Bool.not_eq_true] at him
    cases acc <;> simp [pickStep, him]

/-- A qualityMosaic step winner is the previous winner or the incoming
image, the latter only if it is unmasked at the pixel. -/
lemma pickStep_some_cases {P : Type} (p : P) (acc : Option (SclImage P))
    (img a : SclImage P) (h : pickStep p acc img = some a) :
    acc = some a ∨ (a = img ∧ img.m p = true) := by
  by_cases him : img.m p = true
  · cases acc with
    | none =>
        have h' : some img = some a := by
          rw [← h]
          simp [pickStep, him]
        exact Or.inr ⟨(Option.some.inj h').symm, him⟩
    | some best =>
        by_cases hlt : best.v "quality" p < img.v "quality" p
        · have h' : some img = some a := by
            rw [← h]
            simp [pickStep, him, hlt]
          exact Or.inr ⟨(Option.some.inj h').symm, him⟩
        · have h' : some best = some a := by
            rw [← h]
            simp [pickStep, him, hlt]
          exact Or.inl h'
  · rw [Bool.not_eq_true] at him
    have h' : acc = some a := by
      rw [← h]
      simp [pickStep, him]
    exact Or.inl h'

/-- A qualityMosaic step never lowers the quality of the running
winner. -/
lemma pickStep_mono_acc {P : Type} (p : P) (acc : Option (SclImage P))
    (img a₀ : SclImage P) (h : acc = some a₀) :
    ∃ a, pickStep p acc img = some a ∧
      a₀.v "quality" p ≤ a.v "quality" p := by
  subst h
  by_cases him : img.m p = true
  · by_cases hlt : a₀.v "quality" p < img.v "quality" p
    · exact ⟨img, by simp [pickStep, him, hlt], le_of_lt hlt⟩
    · exact ⟨a₀, by simp [pickStep, him, hlt], le_refl _⟩
  · exact ⟨a₀, by simp [pickStep, him], le_refl _⟩

/-- After a step on an unmasked image, the winner has at least that
image's quality. -/
lemma pickStep_mono_img {P : Type} (p : P) (acc : Option (SclImage P))
    (img : SclImage P) (him : img.m p = true) :
    ∃ a, pickStep p acc img = some a ∧
      img.v "quality" p ≤ a.v "quality" p := by
  cases acc with
  | none => exact ⟨img, by simp [pickStep, him], le_refl _⟩
  | some best =>
      by_cases hlt : best.v "quality" p < img.v "quality" p
      · exact ⟨img, by simp [pickStep, him, hlt], le_refl _⟩
      · exact ⟨best, by simp [pickStep, him, hlt], le_of_not_lt hlt⟩

/-- Invariant of the qualityMosaic scan: starting from any accumulator,
the scan returns none exactly when the accumulator was empty and every
image is masked at the pixel; a returned winner is the accumulator or an
unmasked image of the list, its quality dominates every unmasked image
of the list and never drops below the accumulator's. -/
lemma pickBest_go {P : Type} (p : P) (imgs : List (SclImage P)) :
    ∀ acc : Option (SclImage P),
      (imgs.foldl (pickStep p) acc = none ↔
        acc = none ∧ ∀ img ∈ imgs, img.m p = false) ∧
      ∀ r, imgs.foldl (pickStep p) acc = some r →
        (acc = some r ∨ (r ∈ imgs ∧ r.m p = true)) ∧
        (∀ img ∈ imgs, img.m p = true →
          img.v "quality" p ≤ r.v "quality" p) ∧
        (∀ a, acc = some a →
          a.v "quality" p ≤ r.v "quality" p) := by
  induction imgs with
  | nil =>
      intro acc
      refine ⟨by simp, ?_⟩
      intro r hr
      simp only [List.foldl_nil] at hr
      refine ⟨Or.inl hr, ?_, ?_⟩
      · intro i hi
        exact absurd hi (List.not_mem_nil i)
      · intro a ha
        rw [ha] at hr
        rw [Option.some.inj hr]
  | cons img rest ih =>
      intro acc
      simp only [List.foldl_cons]
      obtain ⟨ihnone, ihsome⟩ := ih (pickStep p acc img)
      constructor
      · rw [ihnone]
        constructor
        · rintro ⟨hstep, hall⟩
          obtain ⟨hacc, him⟩ := pickStep_none_iff.mp hstep
          refine ⟨hacc, ?_⟩
          intro i hi
          rcases List.mem_cons.mp hi with heq | hi'
          · rw [heq]
            exact him
          · exact hall i hi'
        · rintro ⟨hacc, hall⟩
          refine ⟨pickStep_none_iff.mpr
            ⟨hacc, hall img (List.mem_cons_self img rest)⟩, ?_⟩
          intro i hi
          exact hall i (List.mem_cons_of_mem img hi)
      · intro r hr
        obtain ⟨hor, hmax, haccle⟩ := ihsome r hr
        refine ⟨?_, ?_, ?_⟩
        · rcases hor with hstep | ⟨hmem, hm⟩
          · rcases pickStep_some_cases p acc img r hstep with hacc | ⟨heq, him⟩
            · exact Or.inl hacc
            · exact Or.inr ⟨by rw [heq]; exact List.mem_cons_self img rest,
                by rw [heq]; exact him⟩
          · exact Or.inr ⟨List.mem_cons_of_mem _ hmem, hm⟩
        · intro i hi hiv
          rcases List.mem_cons.mp hi with heq | hi'
          · obtain ⟨a, hstep, hle⟩ :=
              pickStep_mono_img p acc img (by rw [← heq]; exact hiv)
            rw [heq]
            exact le_trans hle (haccle a hstep)
          · exact hmax i hi' hiv
        · intro a₀ ha₀
          obtain ⟨a, hstep, hle⟩ := pickStep_mono_acc p acc img a₀ ha₀
          exact le_trans hle (haccle a hstep)

/-- The qualityMosaic pixel winner is absent exactly when every image is
masked at the pixel. -/
lemma pickBest_none_iff {P : Type} (imgs : List (SclImage P)) (p : P) :
    pickBest imgs p = none ↔ ∀ i ∈ imgs, i.m p = false := by
  unfold pickBest
  rw [(pickBest_go p imgs none).1]
  simp

/-- The qualityMosaic pixel winner belongs to the collection, is unmasked
at the pixel and has maximal quality among the unmasked images. -/
lemma pickBest_some {P : Type} {imgs : List (SclImage P)} {p : P}
    {r : SclImage P} (h : pickBest imgs p = some r) :
    r ∈ imgs ∧ r.m p = true ∧
      ∀ i ∈ imgs, i.m p = true →
        i.v "quality" p ≤ r.v "quality" p := by
  unfold pickBest at h
  obtain ⟨hor, hmax, _⟩ := (pickBest_go p imgs none).2 r h
  rcases hor with hnone | ⟨hm, hv⟩
  · exact absurd hnone (by simp)
  · exact ⟨hm, hv, hmax⟩

/-- The masked-then-scored image is unmasked at a pixel exactly when the
original scene pixel is valid under the light SCL mask. -/
lemma lightPipeline_m {P : Type} (i : SclImage P) (p : P) :
    (addQuality (maskSclLight i)).m p = true ↔ validAt i p := by
  simp only [addQuality, maskSclLight, validAt, Bool.and_eq_true,
    Bool.not_eq_true', Bool.or_eq_false_iff, beq_eq_false_iff_ne, ne_eq,
    List.mem_cons, List.not_mem_nil, or_false, not_or]
  tauto

/-- The quality band of the masked-then-scored image carries exactly the
quality score: 100 minus cloud probability, minus 5 where SCL is 8. -/
lemma lightPipeline_quality {P : Type} (i : SclImage P) (p : P) :
    (addQuality (maskSclLight i)).v "quality" p = qualityScore i p := by
  simp only [addQuality, maskSclLight, qualityScore]
  split_ifs with h1 h2 <;>
    first
      | rfl
      | rw [sub_zero]
      | simp_all

/-- The masked-then-scored image keeps every spectral band value. -/
lemma lightPipeline_v {P : Type} (i : SclImage P) (b : String) (p : P)
    (hb : b ≠ "quality") :
    (addQuality (maskSclLight i)).v b p = i.v b p := by
  simp [addQuality, maskSclLight, hb]

/-- C7 counterexample: a single unmasked, cloud-free pixel of SCL class 1
(saturated or defective, a category outside shadow, high-probability
cloud and cirrus) is removed by cloud_masked_light_mosaic, so the
strategy does exclude saturated pixels, contrary to the claim. -/
theorem cloud_masked_light_masks_saturated :
    (1 : ℕ) ∉ ([3, 9, 10] : List ℕ) ∧
    satPix.m 0 = true ∧ satPix.scl 0 = 1 ∧ satPix.cldprb 0 = 0 ∧
    (cloud_masked_light_mosaic [satPix]).v "B4" 0 = none := by
  refine ⟨by decide, rfl, rfl, rfl, ?_⟩
  have hmask : (addQuality (maskSclLight satPix)).m 0 = false := by
    simp [addQuality, maskSclLight, satPix]
  have hnone : pickBest
      (([satPix].map maskSclLight).map addQuality) (0 : Fin 1) = none := by
    rw [pickBest_none_iff]
    intro i hi
    simp only [List.map_map, List.map_cons, List.map_nil,
      List.mem_singleton] at hi
    rw [hi]
    exact hmask
  simp only [cloud_masked_light_mosaic, selectBands, qualityMosaicComposite]
  rw [hnone]
  simp

/-- C7 amended: cloud_masked_light_mosaic masks the SCL categories 1
(saturated or defective), 3 (cloud shadow), 9 (high-probability cloud)
and 10 (cirrus) — one more than the claim's three; every surviving pixel
is scored 100 minus cloud probability with 5 subtracted exactly where
SCL equals 8; the per-pixel winner is a valid scene of maximal score
whose spectral value the composite carries; and the auxiliary quality
band is dropped from the output bands. -/
theorem cloud_masked_light_mosaic_spec {P : Type}
    (collection : List (SclImage P)) (b : String) (p : P)
    (hq : ∀ i ∈ collection, "quality" ∉ i.bands) :
    "quality" ∉ (cloud_masked_light_mosaic collection).bands ∧
    ((∀ i ∈ collection, ¬ validAt i p) →
      (cloud_masked_light_mosaic collection).v b p = none) ∧
    (∀ i₀ ∈ collection, validAt i₀ p → b ≠ "quality" →
      b ∈ (cloud_masked_light_mosaic collection).bands →
      ∃ i ∈ collection, validAt i p ∧
        (cloud_masked_light_mosaic collection).v b p = some (i.v b p) ∧
        ∀ j ∈ collection, validAt j p →
          qualityScore j p ≤ qualityScore i p) := by
  have hwq : (collection.map maskSclLight).map addQuality =
      collection.map fun i => addQuality (maskSclLight i) := by
    rw [List.map_map]
    rfl
  refine ⟨?_, ?_, ?_⟩
  · show "quality" ∉ ((qualityMosaicComposite
      ((collection.map maskSclLight).map addQuality)).bands.erase "quality")
    rw [hwq]
    cases collection with
    | nil => simp [qualityMosaicComposite]
    | cons c cs =>
        have hc : "quality" ∉ c.bands := hq c (List.mem_cons_self c cs)
        simp only [qualityMosaicComposite, List.map_cons, List.head?_cons,
          Option.map_some', Option.getD_some]
        show "quality" ∉ ((c.bands ++ ["quality"]).erase "quality")
        rw [List.erase_append_right _ hc]
        simp [hc]
  · intro hinv
    show (selectBands (qualityMosaicComposite
      ((collection.map maskSclLight).map addQuality)) _).v b p = none
    have hnone : pickBest
        ((collection.map maskSclLight).map addQuality) p = none := by
      rw [pickBest_none_iff]
      intro i hi
      rw [hwq, List.mem_map] at hi
      obtain ⟨i₀, hi₀, heq⟩ := hi
      rw [← heq]
      rw [← Bool.not_eq_true]
      intro hm
      exact hinv i₀ hi₀ ((lightPipeline_m i₀ p).mp hm)
    simp only [selectBands, qualityMosaicComposite]
    rw [hnone]
    simp
  · intro i₀ hi₀ hvalid hbq hbmem
    have hne : ¬ pickBest
        ((collection.map maskSclLight).map addQuality) p = none := by
      rw [pickBest_none_iff]
      intro hall
      have hm := hall (addQuality (maskSclLight i₀))
        (by rw [hwq]; exact List.mem_map_of_mem _ hi₀)
      rw [← Bool.not_eq_true] at hm
      exact hm ((lightPipeline_m i₀ p).mpr hvalid)
    obtain ⟨r, hr⟩ := Option.ne_none_iff_exists'.mp hne
    obtain ⟨hrmem, hrm, hrmax⟩ := pickBest_some hr
    rw [hwq, List.mem_map] at hrmem
    obtain ⟨i, hi, heq⟩ := hrmem
    refine ⟨i, hi, (lightPipeline_m i p).mp (by rw [heq]; exact hrm), ?_, ?_⟩
    · show (selectBands (qualityMosaicComposite
        ((collection.map maskSclLight).map addQuality)) _).v b p =
        some (i.v b p)
      have hbmem' : b ∈ ((Option.map SclImage.bands
          ((collection.map maskSclLight).map addQuality).head?).getD
            []).erase "quality" := hbmem
      simp only [selectBands, qualityMosaicComposite]
      rw [if_pos hbmem', hr]
      simp only [Option.map_some']
      rw [← heq, lightPipeline_v i b p hbq]
    · intro j hj hjvalid
      have hjq := hrmax (addQuality (maskSclLight j))
        (by rw [hwq]; exact List.mem_map_of_mem _ hj)
        ((lightPipeline_m j p).mpr hjvalid)
      rw [lightPipeline_quality] at hjq
      rw [← heq, lightPipeline_quality] at hjq
      exact hjq

/-- C7 witness: the clear pixel (quality 80) loses to the cloud-edge
pixel (quality 85), satisfying the amended specification at a concrete
two-scene collection, with the hypothesis discharged concretely. -/
theorem cloud_masked_light_mosaic_spec_witness :
    (∀ i ∈ [imgClear, imgEdge], "quality" ∉ i.bands) ∧
    ("quality" ∉ (cloud_masked_light_mosaic [imgClear, imgEdge]).bands ∧
      ((∀ i ∈ [imgClear, imgEdge], ¬ validAt i (0 : Fin 1)) →
        (cloud_masked_light_mosaic [imgClear, imgEdge]).v "B4" 0 = none) ∧
      (∀ i₀ ∈ [imgClear, imgEdge], validAt i₀ (0 : Fin 1) →
        "B4" ≠ "quality" →
        "B4" ∈ (cloud_masked_light_mosaic [imgClear, imgEdge]).bands →
        ∃ i ∈ [imgClear, imgEdge], validAt i (0 : Fin 1) ∧
          (cloud_masked_light_mosaic [imgClear, imgEdge]).v "B4" 0 =
            some (i.v "B4" 0) ∧
          ∀ j ∈ [imgClear, imgEdge], validAt j (0 : Fin 1) →
            qualityScore j 0 ≤ qualityScore i 0)) :=
  ⟨by decide,
   cloud_masked_light_mosaic_spec [imgClear, imgEdge] "B4" 0 (by decide)⟩

end Wildfire
